import Mathlib

/-!
Verification development for the Wilson Center Digital Archive scraper
(`scraper.py`).  The Python source is shallowly embedded: the renderer
(SeleniumBase driver) is an external oracle, modelled as explicit input data;
queries that can raise are modelled with `Except Unit`; SQLite tables are
modelled as Lean lists with the same observable behaviour (`INSERT OR
REPLACE`, `SELECT ... ORDER BY`).  Timestamps (`datetime.now()`) are carried
as opaque string fields supplied by the oracle; politeness delays
(`time.sleep`) and logging (`print`) have no observable effect and are
omitted.
-/

set_option maxRecDepth 4000

deriving instance DecidableEq for Except

namespace WilsonScraper

/-- `BASE_URL` class constant of `WilsonArchiveScraper`. -/
def BASE_URL : String := "https://digitalarchive.wilsoncenter.org"

/-- Substring test on character lists: does `pat` occur contiguously in `s`?
Models Python's `pat in s` for strings. -/
def listContains (pat : List Char) : List Char → Bool
  | [] => decide (pat = [])
  | c :: rest => pat.isPrefixOf (c :: rest) || listContains pat rest

/-- Python `"/document/" in href` (scraper.py line 160). -/
def hasDocPattern (h : String) : Bool :=
  listContains "/document/".data h.data

/-- Relative-URL handling of scraper.py lines 161-165: a href starting with
`/` (Python `href.startswith("/")`) is prefixed with `BASE_URL`, anything
else is used as-is. -/
def resolveHref (h : String) : String :=
  if "/".data.isPrefixOf h.data then BASE_URL ++ h else h

/-- One matched anchor element, as seen through `element.get_attribute("href")`:
the read can raise (`Except.error`), return no attribute (`none`) or return a
string. -/
abbrev LinkElem := Except Unit (Option String)

/-- Result of one `driver.find_elements("css selector", selector)` call:
either a raised exception or the ordered element list. -/
abbrev SelectorResult := Except Unit (List LinkElem)

/-- The selector loop of `get_document_links` (scraper.py lines 141-150):
each selector is tried in order; a raising call leaves the `elements`
variable untouched (`except: continue`); a successful call assigns it, and a
non-empty assignment breaks.  `cur` is the current value of the Python
variable `elements` (`none` = still unbound). -/
def selectorLoop : List SelectorResult → Option (List LinkElem) → Option (List LinkElem)
  | [], cur => cur
  | Except.error _ :: rest, cur => selectorLoop rest cur
  | Except.ok l :: rest, _ =>
    if l.isEmpty then selectorLoop rest (some l) else some l

/-- The element loop of `get_document_links` (scraper.py lines 158-169),
with the `links` accumulator made explicit.  An attribute read that raises is
caught by the enclosing `try`/`except` of `get_document_links`, which then
returns the links collected so far. -/
def collectLoop : List LinkElem → List String → List String
  | [], acc => acc
  | Except.error _ :: _, acc => acc
  | Except.ok none :: es, acc => collectLoop es acc
  | Except.ok (some h) :: es, acc =>
    if hasDocPattern h then
      let full := resolveHref h
      if full ∈ acc then collectLoop es acc else collectLoop es (acc ++ [full])
    else collectLoop es acc

/-- The candidate URLs a given element list gives rise to: resolved hrefs of
the elements before the first raising attribute read, filtered by the
`"/document/"` test, duplicates still present.  (Specification-side helper
used to state properties of `collectLoop`.) -/
def linkCandidates : List LinkElem → List String
  | [] => []
  | Except.error _ :: _ => []
  | Except.ok none :: es => linkCandidates es
  | Except.ok (some h) :: es =>
    if hasDocPattern h then resolveHref h :: linkCandidates es
    else linkCandidates es

/-- De-duplication keeping the first occurrence of each value, in order.
(Specification-side helper.) -/
def dedupKeepFirst : List String → List String
  | [] => []
  | a :: l => a :: (dedupKeepFirst l).filter (fun x => !(x == a))

/-- One rendered search-results page as the collector observes it: whether
`driver.get` succeeded, and the outcome of each selector query in the
priority order of scraper.py lines 134-139. -/
structure ResultsPage where
  navOk : Bool
  selectorResults : List SelectorResult

/-- `get_document_links` (scraper.py lines 122-178).  A raising `driver.get`
(line 127, outside the `try`) propagates to the caller; everything inside the
`try` block is caught locally (including the `NameError` raised at line 152
when every selector query raised and `elements` is unbound), so the function
then returns the links collected so far. -/
def get_document_links (p : ResultsPage) : Except Unit (List String) :=
  if p.navOk then
    Except.ok
      (match selectorLoop p.selectorResults none with
       | none => []
       | some elems => collectLoop elems [])
  else Except.error ()

/-- An element handle as the field extractors observe it: its rendered text. -/
structure TextElem where
  text : String
deriving DecidableEq

/-- Python `json.dumps` restricted to lists of strings, as used by the
extraction helpers (scraper.py lines 186 and 240): double-quoted, escaped,
comma-space separated, in square brackets. -/
def jsonEscapeChar (c : Char) : String :=
  if c = '"' then "\\\"" else if c = '\\' then "\\\\" else String.singleton c

/-- Quote one string as a JSON string literal. -/
def jsonQuote (s : String) : String :=
  "\"" ++ String.join (s.data.map jsonEscapeChar) ++ "\""

/-- Serialize a list of strings the way `json.dumps` does. -/
def jsonDumps (xs : List String) : String :=
  "[" ++ String.intercalate ", " (xs.map jsonQuote) ++ "]"

/-- Case-insensitive substring test: Python `a.lower() in b.lower()`. -/
def containsCI (hay pat : String) : Bool :=
  listContains pat.toLower.data hay.toLower.data

/-- A rendered document page as `_get_text_safe` observes it: the outcome of
`find_element` / `find_elements` for each CSS selector (each call can raise). -/
structure DocPage where
  find_element : String → Except Unit TextElem
  find_elements : String → Except Unit (List TextElem)

/-- Body of `_get_text_safe` (scraper.py lines 182-189), before the
`except: return None` boundary: an `Except.error` result is a raised
exception. -/
def get_text_safe_body (d : DocPage) (selector : String) (multiple : Bool) :
    Except Unit (Option String) :=
  if multiple then
    match d.find_elements selector with
    | Except.error e => Except.error e
    | Except.ok els =>
      let texts := (els.map (fun el => el.text.trim)).filter (fun t => !(t == ""))
      Except.ok (if texts.isEmpty then none else some (jsonDumps texts))
  else
    match d.find_element selector with
    | Except.error e => Except.error e
    | Except.ok el =>
      Except.ok (if el.text.trim == "" then none else some el.text.trim)

/-- `_get_text_safe` (scraper.py lines 180-191): the blanket `except` turns
any raised exception into `None`. -/
def get_text_safe (d : DocPage) (selector : String) (multiple : Bool) :
    Option String :=
  match get_text_safe_body d selector multiple with
  | Except.error _ => none
  | Except.ok v => v

/-- One `.information-block` container as `_get_information_block` observes
it: the `find_element` outcomes for its `.sub-title` and `.text` children. -/
structure InfoBlock where
  subtitle : Except Unit TextElem
  textDiv : Except Unit TextElem
deriving DecidableEq

/-- Block scan of `_get_information_block` (scraper.py lines 198-207).
A raising query inside a block hits the inner `except: continue`; a matching
block with blank `.text` returns `None` from the whole function. -/
def infoBlockLoop (title : String) : List InfoBlock → Option String
  | [] => none
  | b :: bs =>
    match b.subtitle with
    | Except.error _ => infoBlockLoop title bs
    | Except.ok st =>
      if containsCI st.text title then
        match b.textDiv with
        | Except.error _ => infoBlockLoop title bs
        | Except.ok td =>
          if td.text.trim == "" then none else some td.text.trim
      else infoBlockLoop title bs

/-- `_get_information_block` (scraper.py lines 193-209): `blocks` is the
outcome of the `.information-block` query; a raised outer query or an
exhausted scan yields `None`. -/
def get_information_block (blocks : Except Unit (List InfoBlock)) (title : String) :
    Option String :=
  match blocks with
  | Except.error _ => none
  | Except.ok bs => infoBlockLoop title bs

/-- One `.pill-block` / `.information-block` container as `_get_pill_list`
observes it: heading query outcome, and the two pill-name query outcomes. -/
structure PillBlock where
  titleEls : Except Unit (List TextElem)
  pillsSpan : Except Unit (List TextElem)
  pillsName : Except Unit (List TextElem)
deriving DecidableEq

/-- Heading scan inside one block (`for title_el in title_els`, scraper.py
lines 224-240).  `none` means the block produced no `return`, so the outer
loop moves on; a raising pill query hits the per-block `except: continue`,
which also abandons the rest of this block's headings. -/
def pillTitleLoop (title : String) (b : PillBlock) : List TextElem → Option (Option String)
  | [] => none
  | t :: ts =>
    if containsCI t.text title then
      match b.pillsSpan with
      | Except.error _ => none
      | Except.ok ps =>
        match (if ps.isEmpty then b.pillsName else Except.ok ps) with
        | Except.error _ => none
        | Except.ok pl =>
          if pl.isEmpty then pillTitleLoop title b ts
          else
            let names := (pl.map (fun p => p.text.trim)).filter (fun t => !(t == ""))
            some (if names.isEmpty then none else some (jsonDumps names))
    else pillTitleLoop title b ts

/-- Block scan of `_get_pill_list` (scraper.py lines 218-242). -/
def pillBlockLoop (title : String) : List PillBlock → Option String
  | [] => none
  | b :: bs =>
    match b.titleEls with
    | Except.error _ => pillBlockLoop title bs
    | Except.ok ts =>
      match pillTitleLoop title b ts with
      | none => pillBlockLoop title bs
      | some v => v

/-- `_get_pill_list` (scraper.py lines 211-245): `blocks` is the outcome of
the `.pill-block, .information-block` query. -/
def get_pill_list (blocks : Except Unit (List PillBlock)) (title : String) :
    Option String :=
  match blocks with
  | Except.error _ => none
  | Except.ok bs => pillBlockLoop title bs

/-- One row of the `documents` table (schema of `_init_database`,
scraper.py lines 42-64), in declared column order.  `document_url` is the
`TEXT PRIMARY KEY`; `page_number` is the only `INTEGER` column; all other
columns are nullable `TEXT`. -/
structure DocRecord where
  document_url : String
  page_number : Option Int
  original_publication_date : Option String
  title : Option String
  credits : Option String
  text_body : Option String
  summary : Option String
  authors : Option String
  associated_places : Option String
  subjects_discussed : Option String
  associated_people_orgs : Option String
  source : Option String
  original_upload_date : Option String
  original_archive_title : Option String
  language : Option String
  rights : Option String
  record_id : Option String
  original_classification : Option String
  donors : Option String
  scraped_at : String
deriving DecidableEq

/-- An all-null record, convenient base for concrete instances. -/
def emptyDoc : DocRecord :=
  { document_url := "", page_number := none,
    original_publication_date := none, title := none, credits := none,
    text_body := none, summary := none, authors := none,
    associated_places := none, subjects_discussed := none,
    associated_people_orgs := none, source := none,
    original_upload_date := none, original_archive_title := none,
    language := none, rights := none, record_id := none,
    original_classification := none, donors := none, scraped_at := "" }

/-- `save_document` (scraper.py lines 287-325): `INSERT OR REPLACE` keyed on
the `document_url` primary key — the row with a conflicting key is deleted
and the new row inserted.  All twenty columns are written as one atomic
statement followed by `commit`. -/
def save_document (docs : List DocRecord) (r : DocRecord) : List DocRecord :=
  docs.filter (fun d => !(d.document_url == r.document_url)) ++ [r]

/-- The rows of the `documents` table whose primary key equals `u`
(`SELECT * FROM documents WHERE document_url = u`). -/
def filterByUrl (docs : List DocRecord) (u : String) : List DocRecord :=
  docs.filter (fun d => d.document_url == u)

/-- `mark_page_completed` (scraper.py lines 111-120): `INSERT OR REPLACE`
into `completed_pages` keyed on `page_number`.  The ledger is modelled as the
list of completed page numbers; re-marking an existing page only rewrites
its timestamp, which nothing ever reads, so the key set is unchanged. -/
def insertPage (l : List Int) (p : Int) : List Int :=
  if p ∈ l then l else l ++ [p]

/-- The durable scraper state: the `documents` table and the key set of the
`completed_pages` table. -/
structure ScraperState where
  documents : List DocRecord
  completed : List Int
deriving DecidableEq

/-- The deterministic external world a crawl observes: the rendering of each
search-results page, and for each document URL either a raised exception or
the extracted metadata payload (the outcome of `scrape_document`'s field
extraction plus the failure modes of `save_document`, collapsed into one
fallible call — both leave the store untouched for that URL when they
raise). -/
structure Driver where
  pages : Int → ResultsPage
  fetchDoc : String → Except Unit DocRecord

/-- `scrape_document` (scraper.py lines 247-285): navigates to the document
URL and extracts every metadata field; the resulting dict always carries
`document_url := url`.  Any raised exception propagates to the caller's item
loop. -/
def scrape_document (d : Driver) (url : String) : Except Unit DocRecord :=
  match d.fetchDoc url with
  | Except.error e => Except.error e
  | Except.ok md => Except.ok { md with document_url := url }

/-- The item loop of `scrape_page` (scraper.py lines 348-361): each link in
order is scraped, given `page_number := page`, and upserted; a raised
exception for one item is caught and the loop continues with the next item. -/
def processItems (d : Driver) (page : Int) (links : List String)
    (docs : List DocRecord) : List DocRecord :=
  links.foldl
    (fun acc url =>
      match scrape_document d url with
      | Except.error _ => acc
      | Except.ok md => save_document acc { md with page_number := some page })
    docs

/-- `scrape_page` (scraper.py lines 327-363).  Returns the new state and the
number of renderer navigations performed; `Except.error` is the exception
that `get_document_links` lets escape (a raising `driver.get`), which the
caller's range loop must handle.  A completed page is skipped before any
network access; an empty link list still marks the page completed; otherwise
the item loop runs and the page is marked completed afterwards. -/
def scrape_page (d : Driver) (s : ScraperState) (page : Int) :
    Except Unit (ScraperState × Nat) :=
  if page ∈ s.completed then Except.ok (s, 0)
  else
    match get_document_links (d.pages page) with
    | Except.error e => Except.error e
    | Except.ok links =>
      if links.isEmpty then
        Except.ok ({ s with completed := insertPage s.completed page }, 1)
      else
        Except.ok
          ({ documents := processItems d page links s.documents,
             completed := insertPage s.completed page },
           1 + links.length)

/-- The page loop of `scrape_range` (scraper.py lines 373-384): a raised
exception from `scrape_page` is caught (`except Exception`), logged, and the
loop advances to the next page number.  The second component accumulates
renderer navigations (a page whose navigation raised still performed one). -/
def scrape_range_loop (d : Driver) : List Int → ScraperState × Nat → ScraperState × Nat
  | [], sn => sn
  | p :: ps, (s, n) =>
    match scrape_page d s p with
    | Except.error _ => scrape_range_loop d ps (s, n + 1)
    | Except.ok (s2, k) => scrape_range_loop d ps (s2, n + k)

/-- Python `range(start_page, end_page + 1)` over integers. -/
def pageRange (startPage endPage : Int) : List Int :=
  (List.range (endPage + 1 - startPage).toNat).map (fun k => startPage + (k : Int))

/-- `scrape_range` (scraper.py lines 365-392), cooperative interrupts aside:
drive `scrape_page` over the inclusive page range, starting with zero
navigations performed. -/
def scrape_range (d : Driver) (startPage endPage : Int) (s : ScraperState) :
    ScraperState × Nat :=
  scrape_range_loop d (pageRange startPage endPage) (s, 0)

/-- Lexicographic comparison of character lists by codepoint, shorter
prefixes first.  This is the order SQLite's default BINARY collation (bytewise
`memcmp` over UTF-8) induces on text values. -/
def charListLe : List Char → List Char → Bool
  | [], _ => true
  | _ :: _, [] => false
  | a :: as, b :: bs =>
    if a.toNat < b.toNat then true
    else if b.toNat < a.toNat then false
    else charListLe as bs

/-- Ordering used by the export query `SELECT * FROM documents ORDER BY
document_url` (scraper.py line 400): ascending on the primary key under the
BINARY collation. -/
def urlLe (a b : DocRecord) : Prop :=
  charListLe a.document_url.data b.document_url.data = true

instance : DecidableRel urlLe :=
  fun a b =>
    inferInstanceAs (Decidable (charListLe a.document_url.data b.document_url.data = true))

/-- The row list the export reads: all documents ordered by `document_url`
ascending. -/
def orderedDocs (docs : List DocRecord) : List DocRecord :=
  List.insertionSort urlLe docs

/-- One CSV cell: SQLite hands back text, integers, or NULL, and the two
derived page columns are integers or NULL. -/
inductive Cell where
  | str : String → Cell
  | int : Int → Cell
  | null : Cell
deriving DecidableEq

/-- A nullable text column as a cell. -/
def cellS : Option String → Cell
  | none => Cell.null
  | some s => Cell.str s

/-- A nullable integer column as a cell. -/
def cellI : Option Int → Cell
  | none => Cell.null
  | some n => Cell.int n

/-- The column names of `SELECT * FROM documents`, in schema order
(`cursor.description`, scraper.py line 408). -/
def sqlColumns : List String :=
  ["document_url", "page_number", "original_publication_date", "title",
   "credits", "text_body", "summary", "authors", "associated_places",
   "subjects_discussed", "associated_people_orgs", "source",
   "original_upload_date", "original_archive_title", "language", "rights",
   "record_id", "original_classification", "donors", "scraped_at"]

/-- One fetched row, cells in schema order. -/
def recordRow (r : DocRecord) : List Cell :=
  [Cell.str r.document_url, cellI r.page_number,
   cellS r.original_publication_date, cellS r.title, cellS r.credits,
   cellS r.text_body, cellS r.summary, cellS r.authors,
   cellS r.associated_places, cellS r.subjects_discussed,
   cellS r.associated_people_orgs, cellS r.source,
   cellS r.original_upload_date, cellS r.original_archive_title,
   cellS r.language, cellS r.rights, cellS r.record_id,
   cellS r.original_classification, cellS r.donors, Cell.str r.scraped_at]

/-- Python `list.insert(n, a)`: insert before index `n`, appending when `n`
is past the end. -/
def insertAt (n : Nat) (a : α) (l : List α) : List α :=
  l.take n ++ a :: l.drop n

/-- Python `columns.index("page_number") if "page_number" in columns else
None` (scraper.py lines 411-413). -/
def page_number_idx : Option Nat :=
  sqlColumns.findIdx? (fun c => c == "page_number")

/-- The CSV header row (scraper.py lines 415-423): two derived column names
inserted right after `page_number` — first `page_zero_indexed`, then
`page_one_indexed`. -/
def exportHeader : List String :=
  match page_number_idx with
  | some i =>
    insertAt (i + 2) "page_one_indexed" (insertAt (i + 1) "page_zero_indexed" sqlColumns)
  | none =>
    insertAt 2 "page_one_indexed" (insertAt 1 "page_zero_indexed" sqlColumns)

/-- One CSV data row (scraper.py lines 430-449): the stored page number is
re-inserted right after its own column, then the stored page number plus one
(or NULL) after that. -/
def exportRowCells (r : DocRecord) : List Cell :=
  match page_number_idx with
  | some i =>
    insertAt (i + 2) (cellI (r.page_number.map (fun n => n + 1)))
      (insertAt (i + 1) (cellI r.page_number) (recordRow r))
  | none =>
    insertAt 2 Cell.null (insertAt 1 Cell.null (recordRow r))

/-- `export_to_csv` (scraper.py lines 394-451): `none` when the table is
empty (no file content is produced); otherwise the header row and the data
rows in `ORDER BY document_url` order. -/
def export_to_csv (docs : List DocRecord) :
    Option (List String × List (List Cell)) :=
  let rows := orderedDocs docs
  if rows.isEmpty then none
  else some (exportHeader, rows.map exportRowCells)

/-- Ascending order on nullable page numbers with nulls first — the
page-number component of the ordering the specification claims for the
export.  (Specification-side definition, used only to compare against the
code's actual ordering.) -/
def pageLeB : Option Int → Option Int → Bool
  | none, _ => true
  | some _, none => false
  | some x, some y => decide (x ≤ y)

/-- An absolute URL begins with its scheme; both `http` and `https` URLs
begin with `http`.  (Specification-side definition, used only to compare the
claimed absoluteness against the code's actual resolution rule.) -/
def isAbsoluteUrl (u : String) : Bool :=
  "http".data.isPrefixOf u.data

/-- A concrete world for exercising the item loop: page 0 renders three
document links and extraction raises exactly on the second one. -/
def exampleDriver : Driver where
  pages := fun _ =>
    ⟨true, [Except.ok [Except.ok (some "/document/u1"),
                       Except.ok (some "/document/u2"),
                       Except.ok (some "/document/u3")]]⟩
  fetchDoc := fun url =>
    if url = "https://digitalarchive.wilsoncenter.org/document/u2" then Except.error ()
    else Except.ok { emptyDoc with title := some "payload", scraped_at := "now" }

/-- A world where every page renders one matched element whose attribute
read raises, and extraction always raises. -/
def faultyReadDriver : Driver where
  pages := fun _ => ⟨true, [Except.ok [Except.error ()]]⟩
  fetchDoc := fun _ => Except.error ()

theorem charListLe_total : ∀ x y, charListLe x y = true ∨ charListLe y x = true := by
  intro x
  induction x with
  | nil => intro y; left; rfl
  | cons a as ih =>
    intro y
    cases y with
    | nil => right; rfl
    | cons b bs =>
      rcases lt_trichotomy a.toNat b.toNat with h | h | h
      · left; simp [charListLe, h]
      · have h1 : ¬ a.toNat < b.toNat := by simp [h]
        have h2 : ¬ b.toNat < a.toNat := by simp [h]
        rcases ih bs with hc | hc
        · left; simp [charListLe, h1, h2, hc]
        · right; simp [charListLe, h1, h2, hc]
      · right; simp [charListLe, h]

theorem charListLe_trans :
    ∀ x y z, charListLe x y = true → charListLe y z = true → charListLe x z = true := by
  intro x
  induction x with
  | nil => intro y z _ _; rfl
  | cons a as ih =>
    intro y z hxy hyz
    cases y with
    | nil => simp [charListLe] at hxy
    | cons b bs =>
      cases z with
      | nil => simp [charListLe] at hyz
      | cons c cs =>
        simp only [charListLe] at hxy hyz ⊢
        by_cases h4 : b.toNat < a.toNat
        · simp [if_neg (by omega : ¬ a.toNat < b.toNat), h4] at hxy
        by_cases h3 : c.toNat < b.toNat
        · simp [if_neg (by omega : ¬ b.toNat < c.toNat), h3] at hyz
        by_cases h1 : a.toNat < b.toNat
        · have : a.toNat < c.toNat := by omega
          simp [this]
        by_cases h2 : b.toNat < c.toNat
        · have : a.toNat < c.toNat := by omega
          simp [this]
        · have hxy2 : charListLe as bs = true := by
            simpa [h1, h4] using hxy
          have hyz2 : charListLe bs cs = true := by
            simpa [h2, h3] using hyz
          simp [if_neg (by omega : ¬ a.toNat < c.toNat),
                if_neg (by omega : ¬ c.toNat < a.toNat), ih bs cs hxy2 hyz2]

/-! Helper lemmas about the keyed `documents` table. -/

theorem filterByUrl_save_self (docs : List DocRecord) (r : DocRecord) :
    filterByUrl (save_document docs r) r.document_url = [r] := by
  simp only [filterByUrl, save_document, List.filter_append, List.filter_filter]
  have h1 : docs.filter
      (fun d => d.document_url == r.document_url && !(d.document_url == r.document_url)) = [] := by
    apply List.filter_eq_nil_iff.mpr
    intro d _
    cases hd : d.document_url == r.document_url <;> simp [hd]
  rw [h1]
  simp

theorem filterByUrl_save_other (docs : List DocRecord) (r : DocRecord) (u : String)
    (h : u ≠ r.document_url) :
    filterByUrl (save_document docs r) u = filterByUrl docs u := by
  simp only [filterByUrl, save_document, List.filter_append, List.filter_filter]
  have h1 : docs.filter (fun d => d.document_url == u && !(d.document_url == r.document_url)) =
      docs.filter (fun d => d.document_url == u) := by
    apply List.filter_congr
    intro d _
    cases hd : d.document_url == u
    · simp
    · have : d.document_url = u := by simpa using hd
      simp [this, h]
  have h2 : [r].filter (fun d => d.document_url == u) = [] := by
    have hb : (r.document_url == u) = false :=
      beq_eq_false_iff_ne.mpr (fun e => h e.symm)
    simp [List.filter, hb]
  rw [h1, h2, List.append_nil]

/-- C6: upsert is last-write-wins keyed by URL.  Saving `r1` then `r2` with
the same URL leaves exactly one stored record under that URL, equal to the
second payload in every field, and leaves every other URL's rows exactly as
they were (no prior version is kept). -/
theorem C6_upsert_last_write_wins (docs : List DocRecord) (r1 r2 : DocRecord)
    (h : r1.document_url = r2.document_url) :
    filterByUrl (save_document (save_document docs r1) r2) r2.document_url = [r2] ∧
    ∀ u, u ≠ r2.document_url →
      filterByUrl (save_document (save_document docs r1) r2) u = filterByUrl docs u := by
  refine ⟨filterByUrl_save_self _ r2, fun u hu => ?_⟩
  rw [filterByUrl_save_other _ r2 u hu,
      filterByUrl_save_other docs r1 u (by rw [h]; exact hu)]

/-- Witness for C6 at a concrete store: two different payloads for URL `u`
with a bystander record at URL `w`. -/
theorem C6_witness :
    filterByUrl
      (save_document
        (save_document [{ emptyDoc with document_url := "w", title := some "other" }]
          { emptyDoc with document_url := "u", title := some "first" })
        { emptyDoc with document_url := "u", title := some "second" }) "u" =
      [{ emptyDoc with document_url := "u", title := some "second" }] ∧
    filterByUrl
      (save_document
        (save_document [{ emptyDoc with document_url := "w", title := some "other" }]
          { emptyDoc with document_url := "u", title := some "first" })
        { emptyDoc with document_url := "u", title := some "second" }) "w" =
      filterByUrl [{ emptyDoc with document_url := "w", title := some "other" }] "w" := by
  have h := C6_upsert_last_write_wins
    [{ emptyDoc with document_url := "w", title := some "other" }]
    { emptyDoc with document_url := "u", title := some "first" }
    { emptyDoc with document_url := "u", title := some "second" } rfl
  exact ⟨h.1, h.2 "w" (by decide)⟩

/-- C4, counterexample to the claim as stated: the export writes two derived
columns, not one, and for a record with stored page number 4 the cell placed
immediately after the stored page-number column holds 4 (the zero-indexed
copy), not 5 — the plus-one value only appears one column further right. -/
theorem C4_counterexample :
    exportHeader.length = sqlColumns.length + 2 ∧
    exportHeader[2]? = some "page_zero_indexed" ∧
    exportHeader[3]? = some "page_one_indexed" ∧
    (exportRowCells
      { emptyDoc with document_url := "u", page_number := some 4, scraped_at := "t" })[2]? =
      some (Cell.int 4) ∧
    some (Cell.int 4) ≠ some (Cell.int 5) ∧
    (exportRowCells
      { emptyDoc with document_url := "u", page_number := some 4, scraped_at := "t" })[3]? =
      some (Cell.int 5) := by
  refine ⟨by decide, by decide, by decide, ?_, by decide, ?_⟩ <;> rfl

/-- C4 amended: the export writes two derived columns immediately after the
stored page-number column — first `page_zero_indexed`, equal to the stored
page number, then `page_one_indexed`, equal to the stored page number plus 1,
each null when the stored page number is null. -/
theorem C4_two_derived_page_columns (r : DocRecord) :
    exportHeader =
      sqlColumns.take 2 ++ "page_zero_indexed" :: "page_one_indexed" :: sqlColumns.drop 2 ∧
    exportHeader[1]? = some "page_number" ∧
    exportRowCells r =
      (recordRow r).take 2 ++
        cellI r.page_number :: cellI (r.page_number.map (fun n => n + 1)) :: (recordRow r).drop 2 ∧
    (exportRowCells r)[1]? = some (cellI r.page_number) ∧
    (exportRowCells r)[2]? = some (cellI r.page_number) ∧
    (exportRowCells r)[3]? = some (cellI (r.page_number.map (fun n => n + 1))) := by
  refine ⟨by decide, by decide, ?_, ?_, ?_, ?_⟩ <;> rfl

/-- C3, counterexample to the claim as stated: the export orders rows by
`document_url` alone.  With a store holding URL `a` at page 2 and URL `b` at
page 1, the export emits page 2 before page 1, so the rows are not sorted by
(page number, position, URL) ascending — and the schema has no
position-within-page column at all. -/
theorem C3_counterexample :
    (orderedDocs
        [{ emptyDoc with document_url := "a", page_number := some 2 },
         { emptyDoc with document_url := "b", page_number := some 1 }]).map
      (fun r => r.page_number) = [some 2, some 1] ∧
    ¬ List.Pairwise (fun a b : DocRecord => pageLeB a.page_number b.page_number = true)
        (orderedDocs
          [{ emptyDoc with document_url := "a", page_number := some 2 },
           { emptyDoc with document_url := "b", page_number := some 1 }]) := by
  constructor
  · decide
  · decide

/-- C3 amended: the export enumerates all item records exactly once, sorted
by document URL ascending under the BINARY collation; page numbers play no
part in the ordering and no position column exists. -/
theorem C3_export_ordered_by_url (docs : List DocRecord) (h : docs ≠ []) :
    List.Perm (orderedDocs docs) docs ∧
    List.Sorted urlLe (orderedDocs docs) ∧
    export_to_csv docs = some (exportHeader, (orderedDocs docs).map exportRowCells) := by
  letI : IsTotal DocRecord urlLe :=
    ⟨fun a b => charListLe_total a.document_url.data b.document_url.data⟩
  letI : IsTrans DocRecord urlLe :=
    ⟨fun a b c => charListLe_trans a.document_url.data b.document_url.data c.document_url.data⟩
  refine ⟨List.perm_insertionSort urlLe docs, List.sorted_insertionSort urlLe docs, ?_⟩
  have hlen : (orderedDocs docs).length = docs.length :=
    (List.perm_insertionSort urlLe docs).length_eq
  have hne : orderedDocs docs ≠ [] := by
    intro he
    apply h
    apply List.length_eq_zero.mp
    rw [← hlen, he]
    rfl
  simp only [export_to_csv]
  rw [if_neg (by simpa [List.isEmpty_iff] using hne)]

/-- Witness for C3 at a concrete non-empty store. -/
theorem C3_witness :
    List.Perm (orderedDocs [{ emptyDoc with document_url := "b" },
        { emptyDoc with document_url := "a" }])
      [{ emptyDoc with document_url := "b" }, { emptyDoc with document_url := "a" }] ∧
    List.Sorted urlLe (orderedDocs [{ emptyDoc with document_url := "b" },
        { emptyDoc with document_url := "a" }]) ∧
    export_to_csv [{ emptyDoc with document_url := "b" }, { emptyDoc with document_url := "a" }] =
      some (exportHeader,
        (orderedDocs [{ emptyDoc with document_url := "b" },
          { emptyDoc with document_url := "a" }]).map exportRowCells) :=
  C3_export_ordered_by_url
    [{ emptyDoc with document_url := "b" }, { emptyDoc with document_url := "a" }]
    (by decide)

/-- C9: every field-extraction strategy is fault-tolerant.  A raised query
becomes `none` at the catch boundary of `_get_text_safe` (first conjunct: any
raising body yields `none`, so no exception leaves the call); a missing
element, blank text, or empty element list yields `none`; a raised outer
block query in `_get_information_block` / `_get_pill_list` yields `none`,
and a raised inner query only skips the offending block, with the scan
falling through to `none` when nothing matches. -/
theorem C9_extraction_strategies_fault_tolerant :
    (∀ (d : DocPage) (sel : String) (m : Bool),
      get_text_safe_body d sel m = Except.error () → get_text_safe d sel m = none) ∧
    (∀ (d : DocPage) (sel : String),
      d.find_element sel = Except.error () → get_text_safe d sel false = none) ∧
    (∀ (d : DocPage) (sel : String) (el : TextElem),
      d.find_element sel = Except.ok el → el.text.trim = "" →
      get_text_safe d sel false = none) ∧
    (∀ (d : DocPage) (sel : String),
      d.find_elements sel = Except.error () → get_text_safe d sel true = none) ∧
    (∀ (d : DocPage) (sel : String),
      d.find_elements sel = Except.ok [] → get_text_safe d sel true = none) ∧
    (∀ title, get_information_block (Except.error ()) title = none) ∧
    (∀ title, get_information_block (Except.ok []) title = none) ∧
    (∀ title (b : InfoBlock) (bs : List InfoBlock), b.subtitle = Except.error () →
      infoBlockLoop title (b :: bs) = infoBlockLoop title bs) ∧
    (∀ title, get_pill_list (Except.error ()) title = none) ∧
    (∀ title, get_pill_list (Except.ok []) title = none) ∧
    (∀ title (b : PillBlock) (bs : List PillBlock), b.titleEls = Except.error () →
      pillBlockLoop title (b :: bs) = pillBlockLoop title bs) := by
  refine ⟨?_, ?_, ?_, ?_, ?_, ?_, ?_, ?_, ?_, ?_, ?_⟩
  · intro d sel m h
    simp [get_text_safe, h]
  · intro d sel h
    simp [get_text_safe, get_text_safe_body, h]
  · intro d sel el h h2
    simp [get_text_safe, get_text_safe_body, h, h2]
  · intro d sel h
    simp [get_text_safe, get_text_safe_body, h]
  · intro d sel h
    simp [get_text_safe, get_text_safe_body, h]
  · intro title
    rfl
  · intro title
    rfl
  · intro title b bs h
    simp [infoBlockLoop, h]
  · intro title
    rfl
  · intro title
    rfl
  · intro title b bs h
    simp [pillBlockLoop, h]

/-- Witness for C9 at concrete inputs: a document page whose single-element
query raises and whose multi-element query finds nothing, plus raising and
empty block lists. -/
theorem C9_witness :
    get_text_safe ⟨fun _ => Except.error (), fun _ => Except.ok []⟩ ".date" false = none ∧
    get_text_safe ⟨fun _ => Except.error (), fun _ => Except.ok []⟩ ".date" true = none ∧
    get_information_block (Except.error ()) "Source" = none ∧
    get_pill_list (Except.ok []) "Author" = none :=
  ⟨C9_extraction_strategies_fault_tolerant.2.1
      ⟨fun _ => Except.error (), fun _ => Except.ok []⟩ ".date" rfl,
   C9_extraction_strategies_fault_tolerant.2.2.2.2.1
      ⟨fun _ => Except.error (), fun _ => Except.ok []⟩ ".date" rfl,
   C9_extraction_strategies_fault_tolerant.2.2.2.2.2.1 "Source",
   C9_extraction_strategies_fault_tolerant.2.2.2.2.2.2.2.2.2.1 "Author"⟩

/-- C7: the selector chain is first-match-wins.  If every selector before
some position either raised or matched nothing, and that position's selector
matched a non-empty element list `l`, then the loop settles on exactly `l` —
whatever later selectors (the `post` list) would have matched is discarded,
never merged — and the collector then processes exactly `l`'s elements. -/
theorem C7_selector_first_match_wins (pre post : List SelectorResult)
    (l : List LinkElem) (cur : Option (List LinkElem))
    (hpre : ∀ r ∈ pre, r = Except.error () ∨ r = Except.ok [])
    (hl : l ≠ []) :
    selectorLoop (pre ++ Except.ok l :: post) cur = some l ∧
    get_document_links ⟨true, pre ++ Except.ok l :: post⟩ =
      Except.ok (collectLoop l []) := by
  have hemp : l.isEmpty = false := by
    cases l
    · exact absurd rfl hl
    · rfl
  have h1 : ∀ (pre2 : List SelectorResult),
      (∀ r ∈ pre2, r = Except.error () ∨ r = Except.ok []) →
      ∀ cur2, selectorLoop (pre2 ++ Except.ok l :: post) cur2 = some l := by
    intro pre2
    induction pre2 with
    | nil =>
      intro _ cur2
      simp [selectorLoop, hemp]
    | cons r rest ih =>
      intro hp cur2
      rcases hp r (by simp) with h | h
      · subst h
        exact ih (fun x hx => hp x (List.mem_cons_of_mem _ hx)) cur2
      · subst h
        simp only [List.cons_append, selectorLoop, List.isEmpty_nil, if_pos rfl]
        exact ih (fun x hx => hp x (List.mem_cons_of_mem _ hx)) (some [])
  refine ⟨h1 pre hpre cur, ?_⟩
  simp [get_document_links, h1 pre hpre none]

/-- Witness for C7: the primary selector and a fallback selector both match;
the collector uses the primary's element and discards the fallback's. -/
theorem C7_witness :
    selectorLoop
      [Except.ok [Except.ok (some "/document/primary")],
       Except.ok [Except.ok (some "/document/fallback")]] none =
      some [Except.ok (some "/document/primary")] ∧
    get_document_links
      ⟨true, [Except.ok [Except.ok (some "/document/primary")],
              Except.ok [Except.ok (some "/document/fallback")]]⟩ =
      Except.ok ["https://digitalarchive.wilsoncenter.org/document/primary"] := by
  have h := C7_selector_first_match_wins []
    [Except.ok [Except.ok (some "/document/fallback")]]
    [Except.ok (some "/document/primary")] none
    (by intro r hr; simp at hr) (by simp)
  simp only [List.nil_append] at h
  have e : collectLoop [Except.ok (some "/document/primary")] ([] : List String) =
      ["https://digitalarchive.wilsoncenter.org/document/primary"] := by decide
  exact ⟨h.1, by rw [← e]; exact h.2⟩

/-! Helper lemmas about the element loop of the link collector. -/

theorem listContains_append_left (pat t b : List Char)
    (h : listContains pat t = true) : listContains pat (b ++ t) = true := by
  induction b with
  | nil => simpa using h
  | cons c b2 ih => simp [listContains, ih]

theorem hasDocPattern_resolveHref (h : String) (hp : hasDocPattern h = true) :
    hasDocPattern (resolveHref h) = true := by
  unfold resolveHref
  split
  · unfold hasDocPattern at hp ⊢
    rw [String.data_append]
    exact listContains_append_left _ _ _ hp
  · exact hp

theorem mem_collectLoop (es : List LinkElem) : ∀ (acc : List String) (u : String),
    u ∈ collectLoop es acc →
    u ∈ acc ∨ ∃ h, Except.ok (some h) ∈ es ∧ hasDocPattern h = true ∧ u = resolveHref h := by
  induction es with
  | nil => intro acc u hu; exact Or.inl hu
  | cons e es2 ih =>
    intro acc u hu
    match e with
    | Except.error _ => exact Or.inl hu
    | Except.ok none =>
      rcases ih acc u hu with h | ⟨hr, h1, h2, h3⟩
      · exact Or.inl h
      · exact Or.inr ⟨hr, List.mem_cons_of_mem _ h1, h2, h3⟩
    | Except.ok (some hstr) =>
      by_cases hp : hasDocPattern hstr = true
      · simp only [collectLoop, hp, if_pos] at hu
        by_cases hin : resolveHref hstr ∈ acc
        · rw [if_pos hin] at hu
          rcases ih acc u hu with h | ⟨hr, h1, h2, h3⟩
          · exact Or.inl h
          · exact Or.inr ⟨hr, List.mem_cons_of_mem _ h1, h2, h3⟩
        · rw [if_neg hin] at hu
          rcases ih (acc ++ [resolveHref hstr]) u hu with h | ⟨hr, h1, h2, h3⟩
          · rcases List.mem_append.mp h with h | h
            · exact Or.inl h
            · refine Or.inr ⟨hstr, List.mem_cons_self _ _, hp, ?_⟩
              simpa using h
          · exact Or.inr ⟨hr, List.mem_cons_of_mem _ h1, h2, h3⟩
      · simp only [collectLoop, hp, if_neg, Bool.false_eq_true, if_false] at hu
        rcases ih acc u hu with h | ⟨hr, h1, h2, h3⟩
        · exact Or.inl h
        · exact Or.inr ⟨hr, List.mem_cons_of_mem _ h1, h2, h3⟩

theorem dedupKeepFirst_filter_comm (m : List String) (p : String → Bool) :
    dedupKeepFirst (m.filter p) = (dedupKeepFirst m).filter p := by
  induction m with
  | nil => rfl
  | cons a m2 ih =>
    by_cases pa : p a = true
    · simp only [List.filter_cons, pa, if_pos, dedupKeepFirst, ih]
      simp [List.filter_filter, Bool.and_comm]
    · have pa2 : p a = false := by
        cases h : p a
        · rfl
        · exact absurd h pa
      simp only [List.filter_cons, pa2, Bool.false_eq_true, if_false, dedupKeepFirst, ih]
      rw [List.filter_filter]
      congr 1
      funext x
      cases hx : x == a
      · simp
      · have : x = a := by simpa using hx
        simp [this, pa2]

theorem dedupKeepFirst_nodup (l : List String) : (dedupKeepFirst l).Nodup := by
  induction l with
  | nil => exact List.nodup_nil
  | cons a l2 ih =>
    refine List.Nodup.cons ?_ (List.Nodup.filter _ ih)
    intro ha
    have := (List.mem_filter.mp ha).2
    simp at this

theorem collectLoop_eq_dedup (es : List LinkElem) : ∀ acc : List String,
    collectLoop es acc =
      acc ++ dedupKeepFirst ((linkCandidates es).filter (fun x => !(decide (x ∈ acc)))) := by
  induction es with
  | nil => intro acc; simp [collectLoop, linkCandidates, dedupKeepFirst]
  | cons e es2 ih =>
    intro acc
    match e with
    | Except.error _ => simp [collectLoop, linkCandidates, dedupKeepFirst]
    | Except.ok none => simpa [collectLoop, linkCandidates] using ih acc
    | Except.ok (some hstr) =>
      by_cases hp : hasDocPattern hstr = true
      · simp only [collectLoop, linkCandidates, hp, if_pos]
        by_cases hin : resolveHref hstr ∈ acc
        · rw [if_pos hin]
          rw [List.filter_cons]
          simp only [hin, Bool.not_true, Bool.false_eq_true, if_false, decide_eq_true_eq,
            decide_eq_true (hin : resolveHref hstr ∈ acc)]
          exact ih acc
        · rw [if_neg hin]
          rw [List.filter_cons]
          have hd : (!(decide (resolveHref hstr ∈ acc))) = true := by simp [hin]
          rw [if_pos hd]
          rw [ih (acc ++ [resolveHref hstr])]
          simp only [dedupKeepFirst, List.append_assoc, List.singleton_append]
          congr 2
          have hfun : ∀ x : String,
              (!(decide (x ∈ acc ++ [resolveHref hstr]))) =
                ((!(x == resolveHref hstr)) && !(decide (x ∈ acc))) := by
            intro x
            by_cases h1 : x ∈ acc
            · simp [h1]
            · by_cases h2 : x = resolveHref hstr
              · simp [h2]
              · simp [h1, h2]
          calc dedupKeepFirst
                ((linkCandidates es2).filter (fun x => !(decide (x ∈ acc ++ [resolveHref hstr]))))
              = dedupKeepFirst (((linkCandidates es2).filter
                  (fun x => !(decide (x ∈ acc)))).filter (fun x => !(x == resolveHref hstr))) := by
                rw [List.filter_filter]
                exact congrArg dedupKeepFirst (List.filter_congr (fun x _ => hfun x))
            _ = (dedupKeepFirst ((linkCandidates es2).filter
                  (fun x => !(decide (x ∈ acc))))).filter (fun x => !(x == resolveHref hstr)) :=
                dedupKeepFirst_filter_comm _ _
      · have hp2 : hasDocPattern hstr = false := by
          cases h : hasDocPattern hstr
          · rfl
          · exact absurd h hp
        simp only [collectLoop, linkCandidates, hp2, Bool.false_eq_true, if_false]
        exact ih acc

/-- C8, counterexample to the claim as stated: the collector only resolves
hrefs that begin with `/`.  The relative href `./document/1` passes the
`"/document/"` filter, is not resolved against the base address, and appears
in the returned list as a non-absolute URL. -/
theorem C8_counterexample :
    get_document_links ⟨true, [Except.ok [Except.ok (some "./document/1")]]⟩ =
      Except.ok ["./document/1"] ∧
    isAbsoluteUrl "./document/1" = false := by
  exact ⟨by decide, by decide⟩

/-- C8 amended: every returned link list is duplicate-free; every member is
the resolution of some matched element's href (hrefs beginning with `/` get
the base address prepended, all others pass through unchanged); and the list
is exactly the candidate hrefs of the chosen element list — resolved,
filtered by the `"/document/"` test, truncated at the first raising
attribute read — de-duplicated keeping first occurrences in page-rendering
order. -/
theorem C8_links_dedup_first_occurrence (p : ResultsPage) (links : List String)
    (h : get_document_links p = Except.ok links) :
    links.Nodup ∧
    (∀ u ∈ links, ∃ hr, hasDocPattern hr = true ∧ u = resolveHref hr) ∧
    (links = [] ∨ ∃ elems, selectorLoop p.selectorResults none = some elems ∧
      links = dedupKeepFirst (linkCandidates elems)) := by
  have hnav : p.navOk = true := by
    cases hn : p.navOk
    · rw [get_document_links, hn] at h
      simp at h
    · rfl
  rw [get_document_links, hnav] at h
  simp only [if_pos] at h
  cases hs : selectorLoop p.selectorResults none with
  | none =>
    rw [hs] at h
    have : links = [] := by
      cases h
      rfl
    subst this
    exact ⟨List.nodup_nil, by intro u hu; simp at hu, Or.inl rfl⟩
  | some elems =>
    rw [hs] at h
    have hl : links = collectLoop elems [] := by
      cases h
      rfl
    subst hl
    refine ⟨?_, ?_, ?_⟩
    · rw [collectLoop_eq_dedup elems []]
      simpa using dedupKeepFirst_nodup _
    · intro u hu
      rcases mem_collectLoop elems [] u hu with h2 | ⟨hr, _, h3, h4⟩
      · simp at h2
      · exact ⟨hr, h3, h4⟩
    · refine Or.inr ⟨elems, rfl, ?_⟩
      rw [collectLoop_eq_dedup elems []]
      simp

/-- Witness for C8 at a concrete rendered page: three anchors, one of them a
duplicate of the first, one relative; output has the duplicate removed, the
relative href resolved, first-occurrence order kept. -/
theorem C8_witness :
    (let pg : ResultsPage :=
      ⟨true, [Except.ok [Except.ok (some "/document/a"),
                         Except.ok (some "https://digitalarchive.wilsoncenter.org/document/a"),
                         Except.ok (some "/document/b")]]⟩
     let links := ["https://digitalarchive.wilsoncenter.org/document/a",
                   "https://digitalarchive.wilsoncenter.org/document/b"]
     links.Nodup ∧
     (∀ u ∈ links, ∃ hr, hasDocPattern hr = true ∧ u = resolveHref hr) ∧
     (links = [] ∨ ∃ elems, selectorLoop pg.selectorResults none = some elems ∧
       links = dedupKeepFirst (linkCandidates elems))) :=
  C8_links_dedup_first_occurrence
    ⟨true, [Except.ok [Except.ok (some "/document/a"),
                       Except.ok (some "https://digitalarchive.wilsoncenter.org/document/a"),
                       Except.ok (some "/document/b")]]⟩
    ["https://digitalarchive.wilsoncenter.org/document/a",
     "https://digitalarchive.wilsoncenter.org/document/b"]
    (by decide)

/-- C10: every URL the link collector returns contains the substring
`"/document/"` — elements whose href is missing or lacks the substring are
filtered out, and prefixing the base address preserves the substring. -/
theorem C10_links_contain_document_pattern (p : ResultsPage) (links : List String)
    (u : String) (h1 : get_document_links p = Except.ok links) (h2 : u ∈ links) :
    hasDocPattern u = true := by
  have hnav : p.navOk = true := by
    cases hn : p.navOk
    · rw [get_document_links, hn] at h1
      simp at h1
    · rfl
  rw [get_document_links, hnav] at h1
  simp only [if_pos] at h1
  cases hs : selectorLoop p.selectorResults none with
  | none =>
    rw [hs] at h1
    have : links = [] := by
      cases h1
      rfl
    subst this
    simp at h2
  | some elems =>
    rw [hs] at h1
    have hl : links = collectLoop elems [] := by
      cases h1
      rfl
    subst hl
    rcases mem_collectLoop elems [] u h2 with h3 | ⟨hr, _, h4, h5⟩
    · simp at h3
    · rw [h5]
      exact hasDocPattern_resolveHref hr h4

/-- Witness for C10: a concrete page with one root-relative and one absolute
href, each resolved URL containing the pattern. -/
theorem C10_witness :
    hasDocPattern "https://digitalarchive.wilsoncenter.org/document/a" = true :=
  C10_links_contain_document_pattern
    ⟨true, [Except.ok [Except.ok (some "/document/a")]]⟩
    ["https://digitalarchive.wilsoncenter.org/document/a"]
    "https://digitalarchive.wilsoncenter.org/document/a"
    (by decide) (by decide)

/-! Helper lemmas about the crawl orchestrator. -/

theorem mem_insertPage {l : List Int} {p q : Int} :
    q ∈ insertPage l p ↔ q ∈ l ∨ q = p := by
  unfold insertPage
  split
  · constructor
    · exact Or.inl
    · rintro (h | h)
      · exact h
      · subst h; assumption
  · simp

theorem self_mem_insertPage (l : List Int) (p : Int) : p ∈ insertPage l p :=
  mem_insertPage.mpr (Or.inr rfl)

/-- When navigation succeeded, no exception leaves `get_document_links`:
every fault inside the collection `try` block is caught locally. -/
theorem gdl_total (p : ResultsPage) (h : p.navOk = true) :
    ∃ l, get_document_links p = Except.ok l := by
  rw [get_document_links, h]
  exact ⟨_, rfl⟩

theorem scrape_page_skip (d : Driver) (s : ScraperState) (p : Int)
    (h : p ∈ s.completed) : scrape_page d s p = Except.ok (s, 0) := by
  rw [scrape_page, if_pos h]

theorem scrape_page_nav_error (d : Driver) (s : ScraperState) (p : Int)
    (h1 : p ∉ s.completed) (h2 : (d.pages p).navOk = false) :
    scrape_page d s p = Except.error () := by
  rw [scrape_page, if_neg h1, get_document_links, h2]
  rfl

theorem scrape_page_run (d : Driver) (s : ScraperState) (p : Int)
    (h1 : p ∉ s.completed) (h2 : (d.pages p).navOk = true) :
    ∃ s2 k, scrape_page d s p = Except.ok (s2, k) ∧
      s2.completed = insertPage s.completed p := by
  obtain ⟨links, hl⟩ := gdl_total (d.pages p) h2
  rw [scrape_page, if_neg h1, hl]
  dsimp only
  by_cases he : links.isEmpty
  · rw [if_pos he]
    exact ⟨_, _, rfl, rfl⟩
  · rw [if_neg he]
    exact ⟨_, _, rfl, rfl⟩

theorem scrape_page_ok_completed (d : Driver) (s s2 : ScraperState) (p : Int) (k : Nat)
    (h : scrape_page d s p = Except.ok (s2, k)) :
    s2 = s ∨ s2.completed = insertPage s.completed p := by
  by_cases hc : p ∈ s.completed
  · rw [scrape_page_skip d s p hc] at h
    cases h
    exact Or.inl rfl
  · cases hn : (d.pages p).navOk
    · rw [scrape_page_nav_error d s p hc hn] at h
      cases h
    · obtain ⟨s3, k3, h3, h4⟩ := scrape_page_run d s p hc hn
      rw [h3] at h
      cases h
      exact Or.inr h4

theorem loop_error_step (d : Driver) (ps : List Int) (s : ScraperState) (n : Nat) (p : Int)
    (h : scrape_page d s p = Except.error ()) :
    scrape_range_loop d (p :: ps) (s, n) = scrape_range_loop d ps (s, n + 1) := by
  rw [scrape_range_loop, h]

theorem loop_ok_step (d : Driver) (ps : List Int) (s s2 : ScraperState) (n k : Nat) (p : Int)
    (h : scrape_page d s p = Except.ok (s2, k)) :
    scrape_range_loop d (p :: ps) (s, n) = scrape_range_loop d ps (s2, n + k) := by
  rw [scrape_range_loop, h]

theorem loop_completed_mono (d : Driver) : ∀ (ps : List Int) (s : ScraperState) (n : Nat)
    (q : Int), q ∈ s.completed → q ∈ (scrape_range_loop d ps (s, n)).1.completed := by
  intro ps
  induction ps with
  | nil => intro s n q hq; exact hq
  | cons p ps2 ih =>
    intro s n q hq
    cases hsp : scrape_page d s p with
    | error e =>
      rw [loop_error_step d ps2 s n p (by cases e; exact hsp)]
      exact ih s (n + 1) q hq
    | ok sk =>
      rw [loop_ok_step d ps2 s sk.1 n sk.2 p (by rw [hsp])]
      refine ih sk.1 (n + sk.2) q ?_
      rcases scrape_page_ok_completed d s sk.1 p sk.2 (by rw [hsp]) with h | h
      · rw [h]; exact hq
      · rw [h]; exact mem_insertPage.mpr (Or.inl hq)

theorem loop_completed_subset (d : Driver) : ∀ (ps : List Int) (s : ScraperState) (n : Nat)
    (q : Int), q ∈ (scrape_range_loop d ps (s, n)).1.completed → q ∈ s.completed ∨ q ∈ ps := by
  intro ps
  induction ps with
  | nil => intro s n q hq; exact Or.inl hq
  | cons p ps2 ih =>
    intro s n q hq
    cases hsp : scrape_page d s p with
    | error e =>
      rw [loop_error_step d ps2 s n p (by cases e; exact hsp)] at hq
      rcases ih s (n + 1) q hq with h | h
      · exact Or.inl h
      · exact Or.inr (List.mem_cons_of_mem _ h)
    | ok sk =>
      rw [loop_ok_step d ps2 s sk.1 n sk.2 p (by rw [hsp])] at hq
      rcases ih sk.1 (n + sk.2) q hq with h | h
      · rcases scrape_page_ok_completed d s sk.1 p sk.2 (by rw [hsp]) with h2 | h2
        · rw [h2] at h
          exact Or.inl h
        · rw [h2] at h
          rcases mem_insertPage.mp h with h3 | h3
          · exact Or.inl h3
          · exact Or.inr (h3 ▸ List.mem_cons_self _ _)
      · exact Or.inr (List.mem_cons_of_mem _ h)

theorem loop_covers (d : Driver) : ∀ (ps : List Int) (s : ScraperState) (n : Nat) (p : Int),
    p ∈ ps →
    p ∈ (scrape_range_loop d ps (s, n)).1.completed ∨ (d.pages p).navOk = false := by
  intro ps
  induction ps with
  | nil => intro s n p hp; cases hp
  | cons q ps2 ih =>
    intro s n p hp
    rcases List.mem_cons.mp hp with hpq | hp2
    · subst hpq
      by_cases hc : p ∈ s.completed
      · rw [loop_ok_step d ps2 s s n 0 p (scrape_page_skip d s p hc)]
        exact Or.inl (loop_completed_mono d ps2 s (n + 0) p hc)
      · cases hn : (d.pages p).navOk
        · exact Or.inr rfl
        · obtain ⟨s2, k, h1, h2⟩ := scrape_page_run d s p hc hn
          rw [loop_ok_step d ps2 s s2 n k p h1]
          exact Or.inl (loop_completed_mono d ps2 s2 (n + k) p
            (h2 ▸ self_mem_insertPage s.completed p))
    · cases hsp : scrape_page d s q with
      | error e =>
        rw [loop_error_step d ps2 s n q (by cases e; exact hsp)]
        exact ih s (n + 1) p hp2
      | ok sk =>
        rw [loop_ok_step d ps2 s sk.1 n sk.2 q (by rw [hsp])]
        exact ih sk.1 (n + sk.2) p hp2

theorem loop_noop (d : Driver) : ∀ (ps : List Int) (s : ScraperState) (n : Nat),
    (∀ p ∈ ps, p ∈ s.completed ∨ (d.pages p).navOk = false) →
    (scrape_range_loop d ps (s, n)).1 = s := by
  intro ps
  induction ps with
  | nil => intro s n _; rfl
  | cons p ps2 ih =>
    intro s n hall
    rcases hall p (List.mem_cons_self _ _) with hc | hn
    · rw [loop_ok_step d ps2 s s n 0 p (scrape_page_skip d s p hc)]
      exact ih s (n + 0) (fun q hq => hall q (List.mem_cons_of_mem _ hq))
    · by_cases hc : p ∈ s.completed
      · rw [loop_ok_step d ps2 s s n 0 p (scrape_page_skip d s p hc)]
        exact ih s (n + 0) (fun q hq => hall q (List.mem_cons_of_mem _ hq))
      · rw [loop_error_step d ps2 s n p (scrape_page_nav_error d s p hc hn)]
        exact ih s (n + 1) (fun q hq => hall q (List.mem_cons_of_mem _ hq))

theorem processItems_cons (d : Driver) (page : Int) (v : String) (vs : List String)
    (docs : List DocRecord) :
    processItems d page (v :: vs) docs =
      processItems d page vs
        (match scrape_document d v with
         | Except.error _ => docs
         | Except.ok md => save_document docs { md with page_number := some page }) := rfl

theorem processItems_filter_error (d : Driver) (page : Int) (u : String)
    (hu : d.fetchDoc u = Except.error ()) : ∀ (links : List String) (docs : List DocRecord),
    filterByUrl (processItems d page links docs) u = filterByUrl docs u := by
  intro links
  induction links with
  | nil => intro docs; rfl
  | cons v vs ih =>
    intro docs
    rw [processItems_cons]
    cases hv : d.fetchDoc v with
    | error e =>
      simp only [scrape_document, hv]
      exact ih docs
    | ok md =>
      have hne : u ≠ v := by
        intro e
        rw [e, hv] at hu
        cases hu
      simp only [scrape_document, hv]
      rw [ih (save_document docs _)]
      exact filterByUrl_save_other docs _ u hne

theorem processItems_filter_stable (d : Driver) (page : Int) (u : String) (md : DocRecord)
    (hu : d.fetchDoc u = Except.ok md) : ∀ (links : List String) (docs : List DocRecord),
    filterByUrl docs u = [{ md with document_url := u, page_number := some page }] →
    filterByUrl (processItems d page links docs) u =
      [{ md with document_url := u, page_number := some page }] := by
  intro links
  induction links with
  | nil => intro docs hd; exact hd
  | cons v vs ih =>
    intro docs hd
    rw [processItems_cons]
    cases hv : d.fetchDoc v with
    | error e =>
      simp only [scrape_document, hv]
      exact ih docs hd
    | ok mdv =>
      simp only [scrape_document, hv]
      by_cases hvu : v = u
      · subst hvu
        rw [hv] at hu
        cases hu
        refine ih _ ?_
        exact filterByUrl_save_self docs _
      · refine ih _ ?_
        rw [filterByUrl_save_other docs _ u (fun e => hvu e.symm)]
        exact hd

theorem processItems_filter_ok (d : Driver) (page : Int) (u : String) (md : DocRecord)
    (hu : d.fetchDoc u = Except.ok md) : ∀ (links : List String) (docs : List DocRecord),
    u ∈ links →
    filterByUrl (processItems d page links docs) u =
      [{ md with document_url := u, page_number := some page }] := by
  intro links
  induction links with
  | nil => intro docs h; cases h
  | cons v vs ih =>
    intro docs hmem
    by_cases hvu : v = u
    · subst hvu
      rw [processItems_cons]
      simp only [scrape_document, hu]
      exact processItems_filter_stable d page v md hu vs _ (filterByUrl_save_self docs _)
    · rcases List.mem_cons.mp hmem with h | h
      · exact absurd h.symm hvu
      · rw [processItems_cons]
        exact ih _ h

/-- C5: partial-page-failure isolation.  For a page not yet completed whose
collected link list is non-empty, `scrape_page` runs the item loop to the
end and marks the page completed; an item whose extraction raises leaves its
URL's stored rows exactly as they were (absent or at their prior value),
while every item whose extraction succeeds ends up stored under its URL with
the page number attached. -/
theorem C5_partial_page_isolation (d : Driver) (s : ScraperState) (page : Int)
    (links : List String)
    (h1 : page ∉ s.completed)
    (h2 : get_document_links (d.pages page) = Except.ok links)
    (h3 : links ≠ []) :
    scrape_page d s page =
      Except.ok ({ documents := processItems d page links s.documents,
                   completed := insertPage s.completed page }, 1 + links.length) ∧
    page ∈ insertPage s.completed page ∧
    (∀ u, d.fetchDoc u = Except.error () →
      filterByUrl (processItems d page links s.documents) u = filterByUrl s.documents u) ∧
    (∀ u md, u ∈ links → d.fetchDoc u = Except.ok md →
      filterByUrl (processItems d page links s.documents) u =
        [{ md with document_url := u, page_number := some page }]) := by
  have hemp : links.isEmpty = false := by
    cases links
    · exact absurd rfl h3
    · rfl
  refine ⟨?_, self_mem_insertPage s.completed page, ?_, ?_⟩
  · rw [scrape_page, if_neg h1, h2]
    dsimp only
    rw [hemp]
    rfl
  · intro u hu
    exact processItems_filter_error d page u hu links s.documents
  · intro u md hmem hu
    exact processItems_filter_ok d page u md hu links s.documents hmem

/-- Witness for C5: with three links where item 2 faults, items 1 and 3 are
stored with the page number attached, item 2's URL stays absent (as in the
prior empty store), and the page is marked completed. -/
theorem C5_witness :
    (0 : Int) ∈ insertPage ([] : List Int) 0 ∧
    filterByUrl
      (processItems exampleDriver 0
        ["https://digitalarchive.wilsoncenter.org/document/u1",
         "https://digitalarchive.wilsoncenter.org/document/u2",
         "https://digitalarchive.wilsoncenter.org/document/u3"] [])
      "https://digitalarchive.wilsoncenter.org/document/u2" =
      filterByUrl [] "https://digitalarchive.wilsoncenter.org/document/u2" ∧
    filterByUrl
      (processItems exampleDriver 0
        ["https://digitalarchive.wilsoncenter.org/document/u1",
         "https://digitalarchive.wilsoncenter.org/document/u2",
         "https://digitalarchive.wilsoncenter.org/document/u3"] [])
      "https://digitalarchive.wilsoncenter.org/document/u1" =
      [{ ({ emptyDoc with title := some "payload", scraped_at := "now" } : DocRecord) with
          document_url := "https://digitalarchive.wilsoncenter.org/document/u1",
          page_number := some 0 }] ∧
    filterByUrl
      (processItems exampleDriver 0
        ["https://digitalarchive.wilsoncenter.org/document/u1",
         "https://digitalarchive.wilsoncenter.org/document/u2",
         "https://digitalarchive.wilsoncenter.org/document/u3"] [])
      "https://digitalarchive.wilsoncenter.org/document/u3" =
      [{ ({ emptyDoc with title := some "payload", scraped_at := "now" } : DocRecord) with
          document_url := "https://digitalarchive.wilsoncenter.org/document/u3",
          page_number := some 0 }] := by
  have h := C5_partial_page_isolation exampleDriver ⟨[], []⟩ 0
      ["https://digitalarchive.wilsoncenter.org/document/u1",
       "https://digitalarchive.wilsoncenter.org/document/u2",
       "https://digitalarchive.wilsoncenter.org/document/u3"]
      (by decide) (by decide) (by decide)
  exact ⟨h.2.1,
    h.2.2.1 "https://digitalarchive.wilsoncenter.org/document/u2" (by decide),
    h.2.2.2 "https://digitalarchive.wilsoncenter.org/document/u1"
      { emptyDoc with title := some "payload", scraped_at := "now" } (by decide) (by decide),
    h.2.2.2 "https://digitalarchive.wilsoncenter.org/document/u3"
      { emptyDoc with title := some "payload", scraped_at := "now" } (by decide) (by decide)⟩

/-- C2, counterexample to the claim as stated: an exception raised while
collecting links — here the lone matched element's href read — is caught
inside `get_document_links` itself, which returns the links gathered so far
(`Except.ok []`), so nothing propagates to the range loop; the page then
falls into the empty-links branch and IS marked complete, no longer eligible
for a resumed run. -/
theorem C2_counterexample :
    get_document_links ⟨true, [Except.ok [Except.error ()]]⟩ = Except.ok [] ∧
    (scrape_range faultyReadDriver 0 0 ⟨[], []⟩).1.completed = [0] ∧
    (scrape_range faultyReadDriver 0 0 ⟨[], []⟩).1.documents = [] := by
  refine ⟨by decide, by decide, by decide⟩

/-- C2 amended: only an exception raised by the navigation itself escapes
`get_document_links`; such an exception is caught at the range loop, which
advances with the state unchanged, and a page can only ever enter the
completion ledger by being processed, so a navigation-faulted page that is
not processed later stays un-completed.  Exceptions raised during selector
matching or element processing never escape the collector (fourth conjunct:
with navigation succeeded, the collector always returns a link list). -/
theorem C2_page_fault_recovery :
    (∀ (d : Driver) (s : ScraperState) (p : Int),
      p ∉ s.completed → (d.pages p).navOk = false →
      scrape_page d s p = Except.error ()) ∧
    (∀ (d : Driver) (ps : List Int) (s : ScraperState) (n : Nat) (p : Int),
      scrape_page d s p = Except.error () →
      scrape_range_loop d (p :: ps) (s, n) = scrape_range_loop d ps (s, n + 1)) ∧
    (∀ (d : Driver) (ps : List Int) (s : ScraperState) (n : Nat) (p : Int),
      p ∉ s.completed → p ∉ ps → scrape_page d s p = Except.error () →
      p ∉ (scrape_range_loop d (p :: ps) (s, n)).1.completed) ∧
    (∀ p : ResultsPage, p.navOk = true → ∃ l, get_document_links p = Except.ok l) := by
  refine ⟨scrape_page_nav_error, loop_error_step, ?_, gdl_total⟩
  intro d ps s n p hs hps herr hmem
  rw [loop_error_step d ps s n p herr] at hmem
  rcases loop_completed_subset d ps s (n + 1) p hmem with h | h
  · exact hs h
  · exact hps h

/-- Witness for C2 at concrete inputs: a navigation-failing world (`pages`
always renders with `navOk := false`). -/
theorem C2_witness :
    scrape_page ⟨fun _ => ⟨false, []⟩, fun _ => Except.error ()⟩ ⟨[], []⟩ 5 =
      Except.error () ∧
    scrape_range_loop ⟨fun _ => ⟨false, []⟩, fun _ => Except.error ()⟩ [5]
      (⟨[], []⟩, 0) =
      scrape_range_loop ⟨fun _ => ⟨false, []⟩, fun _ => Except.error ()⟩ []
        (⟨[], []⟩, 0 + 1) ∧
    (5 : Int) ∉ (scrape_range_loop ⟨fun _ => ⟨false, []⟩, fun _ => Except.error ()⟩ [5]
      (⟨[], []⟩, 0)).1.completed ∧
    ∃ l, get_document_links ⟨true, [Except.ok []]⟩ = Except.ok l := by
  refine ⟨C2_page_fault_recovery.1 _ _ _ (by decide) rfl,
    C2_page_fault_recovery.2.1 _ _ _ _ _ ?_,
    C2_page_fault_recovery.2.2.1 _ _ _ _ _ (by decide) (by decide) ?_,
    C2_page_fault_recovery.2.2.2 _ rfl⟩
  · exact C2_page_fault_recovery.1 _ _ _ (by decide) rfl
  · exact C2_page_fault_recovery.1 _ _ _ (by decide) rfl

/-- C1: resumed runs are idempotent.  A page already in the completion
ledger makes `scrape_page` return with the state unchanged and zero renderer
navigations (first conjunct).  Consequently a whole page range run a second
time from the first run's final state leaves the stored state — item records
and completion markers — exactly as the first run left it (second
conjunct): every page the first run completed is skipped without
navigation, and every page the first run left un-completed fails navigation
again in the deterministic world, changing nothing. -/
theorem C1_resumed_run_idempotent :
    (∀ (d : Driver) (s : ScraperState) (p : Int),
      p ∈ s.completed → scrape_page d s p = Except.ok (s, 0)) ∧
    (∀ (d : Driver) (a b : Int) (s0 : ScraperState),
      (scrape_range d a b ((scrape_range d a b s0).1)).1 = (scrape_range d a b s0).1) := by
  refine ⟨scrape_page_skip, ?_⟩
  intro d a b s0
  show (scrape_range_loop d (pageRange a b) ((scrape_range d a b s0).1, 0)).1 =
    (scrape_range d a b s0).1
  apply loop_noop
  intro p hp
  rcases loop_covers d (pageRange a b) s0 0 p hp with h | h
  · exact Or.inl h
  · exact Or.inr h

/-- Witness for C1: a completed page is skipped with zero navigations and no
state change, and re-running a concrete two-page range is a no-op on the
state. -/
theorem C1_witness :
    scrape_page ⟨fun _ => ⟨false, []⟩, fun _ => Except.error ()⟩ ⟨[], [3]⟩ 3 =
      Except.ok (⟨[], [3]⟩, 0) ∧
    (scrape_range ⟨fun _ => ⟨true, []⟩, fun _ => Except.error ()⟩ 0 1
        ((scrape_range ⟨fun _ => ⟨true, []⟩, fun _ => Except.error ()⟩ 0 1 ⟨[], []⟩).1)).1 =
      (scrape_range ⟨fun _ => ⟨true, []⟩, fun _ => Except.error ()⟩ 0 1 ⟨[], []⟩).1 :=
  ⟨C1_resumed_run_idempotent.1 ⟨fun _ => ⟨false, []⟩, fun _ => Except.error ()⟩
      ⟨[], [3]⟩ 3 (by decide),
   C1_resumed_run_idempotent.2 ⟨fun _ => ⟨true, []⟩, fun _ => Except.error ()⟩ 0 1 ⟨[], []⟩⟩

end WilsonScraper
